import Mathlib

/-!
Verification of the trace-log scanner in res/log-chew.py.

The script reads a gdb transcript, scans it line by line with an integer
state counter, and collects one dictionary per breakpoint pause event:
  state -1 : seek the first line containing the long marker substring
  marker   : any line containing the short marker substring resets the
             in-progress dictionary and sets state 0
  state 0  : skip the source-location line
  state 1  : pc := int(first colon-field of the line, base 0) - 1
  state 2  : stack_sz := int(second field of the line split on the
             string consisting of space, equals sign, space, base 0) - 1
  states 3,4,5 : append two tab-separated words of the memory-dump line
  state 6  : trim the collected words and append the dictionary to res

Lines are modelled as lists of characters.  Python exceptions
(ValueError from int, IndexError from list indexing, KeyError from dict
access) are modelled with an Except monad: any uncaught exception aborts
the whole scan, exactly as the script would die with a traceback.
Appending the same dictionary object to res several times aliases it, so
the committed entries of the current event all show the dictionary value
at end of scan; the model keeps a counter of pending aliased appends and
materialises them when the dictionary is abandoned (new marker) or at
end of input.
-/

/-- Whitespace characters stripped by the Python int conversion. -/
def isWS (c : Char) : Bool :=
  c == ' ' || c == '\t' || c == '\n' || c == '\r'

/-- Strip leading and trailing whitespace, as Python int does to its argument. -/
def stripWS (s : List Char) : List Char :=
  ((s.dropWhile isWS).reverse.dropWhile isWS).reverse

/-- Hexadecimal digit test. -/
def isHexCh (c : Char) : Bool :=
  c.isDigit || ( 'a' ≤ c && c ≤ 'f') || ( 'A' ≤ c && c ≤ 'F')

/-- Octal digit test. -/
def isOctCh (c : Char) : Bool := '0' ≤ c && c ≤ '7'

/-- Binary digit test. -/
def isBinCh (c : Char) : Bool := c == '0' || c == '1'

/-- Numeric value of one digit character (valid for bases up to 16). -/
def digVal (c : Char) : Nat :=
  if c.isDigit then c.toNat - 48
  else if 'a' ≤ c && c ≤ 'f' then c.toNat - 87
  else c.toNat - 55

/-- Value of a digit string in the given base. -/
def digitsVal (base : Nat) (cs : List Char) : Nat :=
  cs.foldl (fun a c => a * base + digVal c) 0

/-- Magnitude part of the Python base-0 int conversion: an optional 0x, 0o
or 0b prefix selects the base, a bare nonzero decimal may not start with 0,
and a run of zeros denotes 0.  (Digit-group underscores, which never occur
in gdb output, are not modelled.) -/
def pyIntCore (body : List Char) : Option Nat :=
  match body with
  | '0' :: c :: ds =>
    if c == 'x' || c == 'X' then
      if !ds.isEmpty && ds.all isHexCh then some (digitsVal 16 ds) else none
    else if c == 'o' || c == 'O' then
      if !ds.isEmpty && ds.all isOctCh then some (digitsVal 8 ds) else none
    else if c == 'b' || c == 'B' then
      if !ds.isEmpty && ds.all isBinCh then some (digitsVal 2 ds) else none
    else
      if (c :: ds).all (fun x => x == '0') then some 0 else none
  | _ =>
    if !body.isEmpty && body.all Char.isDigit then some (digitsVal 10 body)
    else none

/-- Python int(s, 0): strip whitespace, read an optional sign, then a
prefix-aware integer literal; none models the ValueError raised on any
other input. -/
def pyIntBase0 (s : List Char) : Option Int :=
  match stripWS s with
  | [] => none
  | c :: rest =>
    if c == '-' then (pyIntCore rest).map (fun n => -(n : Int))
    else if c == '+' then (pyIntCore rest).map (fun n => (n : Int))
    else (pyIntCore (c :: rest)).map (fun n => (n : Int))

/-- Python substring test (pat in s). -/
def hasInfix (pat : List Char) : List Char → Bool
  | [] => pat.isEmpty
  | c :: rest => pat.isPrefixOf (c :: rest) || hasInfix pat rest

/-- Split off everything before the first occurrence of sep, returning the
part before it and the part after it, or none when sep does not occur. -/
def breakOnSep (sep : List Char) : List Char → Option (List Char × List Char)
  | [] => none
  | c :: rest =>
    if sep.isPrefixOf (c :: rest) then some ([], (c :: rest).drop sep.length)
    else
      match breakOnSep sep rest with
      | none => none
      | some (pre, post) => some (c :: pre, post)

/-- Fuelled worker for the Python str.split with an explicit separator.
Every found occurrence of a nonempty separator strictly shortens the
remainder, so fuel equal to the length of the string plus one is exact. -/
def splitOnSepFuel (sep : List Char) : Nat → List Char → List (List Char)
  | 0, s => [s]
  | n + 1, s =>
    match breakOnSep sep s with
    | none => [s]
    | some (pre, post) => pre :: splitOnSepFuel sep n post

/-- Python str.split with an explicit (nonempty) separator. -/
def splitOnSep (sep s : List Char) : List (List Char) :=
  splitOnSepFuel sep (s.length + 1) s

/-- Long marker substring sought while in state -1. -/
def marker1 : List Char := ("Breakpoint 2, execute_stack_op").toList

/-- Short marker substring that starts a new event in every state. -/
def marker2 : List Char := ("Breakpoint 2").toList

/-- Colon separator used for the pc line and the word-dump lines. -/
def colonSep : List Char := (":").toList

/-- Space-equals-space separator used for the stack-size line. -/
def eqSep : List Char := (" = ").toList

/-- Tab separator used inside a word-dump line. -/
def tabSep : List Char := ("\t").toList

/-- Python exceptions the script can die with. -/
inductive PyErr where
  | valueError : List Char → PyErr
  | indexError : PyErr
  | keyError : PyErr

/-- The per-event dictionary rec of the script: the word list under key
stack, and the optional keys pc and stack_sz (absent keys are none). -/
structure PyRec where
  stack : List Int
  pc : Option Int
  stack_sz : Option Int

/-- int(f, 0), raising ValueError on the offending field when it does not parse. -/
def parseField (f : List Char) : Except PyErr Int :=
  match pyIntBase0 f with
  | none => Except.error (PyErr.valueError f)
  | some v => Except.ok v

/-- int(line.split(colon)[0], 0): the pc extraction of state 1. -/
def pcField (line : List Char) : Except PyErr Int :=
  match (splitOnSep colonSep line).get? 0 with
  | none => Except.error PyErr.indexError
  | some f => parseField f

/-- int(line.split(space-equals-space)[1], 0): the stack-size extraction of state 2. -/
def szField (line : List Char) : Except PyErr Int :=
  match (splitOnSep eqSep line).get? 1 with
  | none => Except.error PyErr.indexError
  | some f => parseField f

/-- The two words of a dump line: vals = line.split(colon)[1].split(tab),
then int(vals[1], 0) and int(vals[2], 0), in that evaluation order. -/
def dumpFields (line : List Char) : Except PyErr (Int × Int) :=
  match (splitOnSep colonSep line).get? 1 with
  | none => Except.error PyErr.indexError
  | some body =>
    let vals := splitOnSep tabSep body
    match vals.get? 1 with
    | none => Except.error PyErr.indexError
    | some s1 =>
      match pyIntBase0 s1 with
      | none => Except.error (PyErr.valueError s1)
      | some v1 =>
        match vals.get? 2 with
        | none => Except.error PyErr.indexError
        | some s2 =>
          match pyIntBase0 s2 with
          | none => Except.error (PyErr.valueError s2)
          | some v2 => Except.ok (v1, v2)

/-- Python list slice l[:n], which for negative n drops the last -n elements. -/
def pySliceTo (n : Int) (l : List α) : List α :=
  if 0 ≤ n then l.take n.toNat else l.take ((l.length : Int) + n).toNat

/-- The trim step of state 6: reverse the collected words, then either cut
to stack_sz (when longer than stack_sz) or cut to 5, and reverse back. -/
def trimCommit (stack : List Int) (sz : Int) : List Int :=
  let s := stack.reverse
  if (s.length : Int) > sz then (pySliceTo sz s).reverse
  else (pySliceTo 5 s).reverse

/-- Scanner state: the state counter, the current dictionary, the res
entries belonging to abandoned dictionaries, and the number of aliased
appends of the current dictionary still pending in res. -/
structure ScanSt where
  state : Int
  cur : PyRec
  committed : List PyRec
  curCount : Nat

/-- Initial scanner state: state = -1, rec = the empty dictionary, res = []. -/
def initSt : ScanSt :=
  { state := -1, cur := { stack := [], pc := none, stack_sz := none },
    committed := [], curCount := 0 }

/-- The res list as observed at the moment the current dictionary stops
being mutated: earlier entries followed by the pending aliased appends. -/
def flush (st : ScanSt) : List PyRec :=
  st.committed ++ List.replicate st.curCount st.cur

/-- One iteration of the scan loop of the script on one line. -/
def stepLine (st : ScanSt) (line : List Char) : Except PyErr ScanSt :=
  if st.state = -1 ∧ hasInfix marker1 line = false then Except.ok st
  else if hasInfix marker2 line then
    Except.ok { state := 0, cur := { stack := [], pc := none, stack_sz := none },
                committed := flush st, curCount := 0 }
  else if st.state = 0 then Except.ok { st with state := 1 }
  else if st.state = 1 then
    match pcField line with
    | Except.error e => Except.error e
    | Except.ok v =>
      Except.ok { st with state := 2, cur := { st.cur with pc := some (v - 1) } }
  else if st.state = 2 then
    match szField line with
    | Except.error e => Except.error e
    | Except.ok v =>
      Except.ok { st with state := 3, cur := { st.cur with stack_sz := some (v - 1) } }
  else if st.state = 3 ∨ st.state = 4 ∨ st.state = 5 then
    match dumpFields line with
    | Except.error e => Except.error e
    | Except.ok (v1, v2) =>
      Except.ok
        { st with
          state := st.state + 1,
          cur := { st.cur with stack := st.cur.stack ++ [v1, v2] } }
  else if st.state = 6 then
    match st.cur.stack_sz with
    | none => Except.error PyErr.keyError
    | some sz =>
      Except.ok
        { st with
          cur := { st.cur with stack := trimCommit st.cur.stack sz },
          curCount := st.curCount + 1 }
  else Except.ok st

/-- The whole scan: fold the loop body over the lines; an uncaught
exception aborts everything, otherwise res is returned. -/
def scanLines (lines : List (List Char)) : Except PyErr (List PyRec) :=
  match List.foldlM stepLine initSt lines with
  | Except.error e => Except.error e
  | Except.ok st => Except.ok (flush st)


/-! Small-step lemmas: one scan-loop iteration in each reachable situation. -/

/-- Folding the empty line list returns the state unchanged. -/
theorem foldlM_nil (st : ScanSt) :
    List.foldlM stepLine st [] = Except.ok st := rfl

/-- A successful step peels one line off the fold. -/
theorem foldlM_cons_ok {st st2 : ScanSt} {l : List Char} {ls : List (List Char)}
    (h : stepLine st l = Except.ok st2) :
    List.foldlM stepLine st (l :: ls) = List.foldlM stepLine st2 ls := by
  simp only [List.foldlM, h]
  rfl

/-- A failing step aborts the whole fold, whatever lines remain. -/
theorem foldlM_cons_err {st : ScanSt} {e : PyErr} {l : List Char} {ls : List (List Char)}
    (h : stepLine st l = Except.error e) :
    List.foldlM stepLine st (l :: ls) = Except.error e := by
  simp only [List.foldlM, h]
  rfl

/-- In state -1 a line without the long marker is skipped. -/
theorem step_seek {r : PyRec} {c : List PyRec} {k : Nat} {l : List Char}
    (h : hasInfix marker1 l = false) :
    stepLine ⟨-1, r, c, k⟩ l = Except.ok ⟨-1, r, c, k⟩ := by
  simp [stepLine, h]

/-- A line containing the long marker starts a new event from any state,
materialising the pending appends of the abandoned dictionary. -/
theorem step_marker (st : ScanSt) {l : List Char}
    (h1 : hasInfix marker1 l = true) (h2 : hasInfix marker2 l = true) :
    stepLine st l = Except.ok ⟨0, ⟨[], none, none⟩, flush st, 0⟩ := by
  simp [stepLine, h1, h2]

/-- Once scanning has begun, a line containing the short marker starts a
new event from any state. -/
theorem step_marker_started (st : ScanSt) {l : List Char}
    (h0 : st.state ≠ -1) (h2 : hasInfix marker2 l = true) :
    stepLine st l = Except.ok ⟨0, ⟨[], none, none⟩, flush st, 0⟩ := by
  simp [stepLine, h0, h2]

/-- State 0 skips the source-location line. -/
theorem step_state0 {r : PyRec} {c : List PyRec} {k : Nat} {l : List Char}
    (h : hasInfix marker2 l = false) :
    stepLine ⟨0, r, c, k⟩ l = Except.ok ⟨1, r, c, k⟩ := by
  simp [stepLine, h]

/-- State 1 stores the parsed leading address minus one. -/
theorem step_state1 {r : PyRec} {c : List PyRec} {k : Nat} {l : List Char} {a : Int}
    (h : hasInfix marker2 l = false) (hp : pcField l = Except.ok a) :
    stepLine ⟨1, r, c, k⟩ l = Except.ok ⟨2, ⟨r.stack, some (a - 1), r.stack_sz⟩, c, k⟩ := by
  simp [stepLine, h, hp]

/-- State 1 dies when the leading colon-field does not parse. -/
theorem step_state1_err {r : PyRec} {c : List PyRec} {k : Nat} {l : List Char} {e : PyErr}
    (h : hasInfix marker2 l = false) (hp : pcField l = Except.error e) :
    stepLine ⟨1, r, c, k⟩ l = Except.error e := by
  simp [stepLine, h, hp]

/-- State 2 stores the parsed scalar minus one. -/
theorem step_state2 {r : PyRec} {c : List PyRec} {k : Nat} {l : List Char} {d : Int}
    (h : hasInfix marker2 l = false) (hp : szField l = Except.ok d) :
    stepLine ⟨2, r, c, k⟩ l = Except.ok ⟨3, ⟨r.stack, r.pc, some (d - 1)⟩, c, k⟩ := by
  simp [stepLine, h, hp]

/-- State 2 dies when the scalar field does not parse. -/
theorem step_state2_err {r : PyRec} {c : List PyRec} {k : Nat} {l : List Char} {e : PyErr}
    (h : hasInfix marker2 l = false) (hp : szField l = Except.error e) :
    stepLine ⟨2, r, c, k⟩ l = Except.error e := by
  simp [stepLine, h, hp]

/-- State 3 appends the two words of the first dump line. -/
theorem step_state3 {r : PyRec} {c : List PyRec} {k : Nat} {l : List Char} {v1 v2 : Int}
    (h : hasInfix marker2 l = false) (hd : dumpFields l = Except.ok (v1, v2)) :
    stepLine ⟨3, r, c, k⟩ l =
      Except.ok ⟨4, ⟨r.stack ++ [v1, v2], r.pc, r.stack_sz⟩, c, k⟩ := by
  simp [stepLine, h, hd]

/-- State 3 dies when the dump line does not parse. -/
theorem step_state3_err {r : PyRec} {c : List PyRec} {k : Nat} {l : List Char} {e : PyErr}
    (h : hasInfix marker2 l = false) (hd : dumpFields l = Except.error e) :
    stepLine ⟨3, r, c, k⟩ l = Except.error e := by
  simp [stepLine, h, hd]

/-- State 4 appends the two words of the second dump line. -/
theorem step_state4 {r : PyRec} {c : List PyRec} {k : Nat} {l : List Char} {v1 v2 : Int}
    (h : hasInfix marker2 l = false) (hd : dumpFields l = Except.ok (v1, v2)) :
    stepLine ⟨4, r, c, k⟩ l =
      Except.ok ⟨5, ⟨r.stack ++ [v1, v2], r.pc, r.stack_sz⟩, c, k⟩ := by
  simp [stepLine, h, hd]

/-- State 5 appends the two words of the third dump line. -/
theorem step_state5 {r : PyRec} {c : List PyRec} {k : Nat} {l : List Char} {v1 v2 : Int}
    (h : hasInfix marker2 l = false) (hd : dumpFields l = Except.ok (v1, v2)) :
    stepLine ⟨5, r, c, k⟩ l =
      Except.ok ⟨6, ⟨r.stack ++ [v1, v2], r.pc, r.stack_sz⟩, c, k⟩ := by
  simp [stepLine, h, hd]

/-- State 4 dies when the second dump line does not parse. -/
theorem step_state4_err {r : PyRec} {c : List PyRec} {k : Nat} {l : List Char} {e : PyErr}
    (h : hasInfix marker2 l = false) (hd : dumpFields l = Except.error e) :
    stepLine ⟨4, r, c, k⟩ l = Except.error e := by
  simp [stepLine, h, hd]

/-- State 5 dies when the third dump line does not parse. -/
theorem step_state5_err {r : PyRec} {c : List PyRec} {k : Nat} {l : List Char} {e : PyErr}
    (h : hasInfix marker2 l = false) (hd : dumpFields l = Except.error e) :
    stepLine ⟨5, r, c, k⟩ l = Except.error e := by
  simp [stepLine, h, hd]

/-- State 6 trims the word list in place and appends the dictionary to res
once more (an aliased append, counted in curCount). -/
theorem step_state6 {stk : List Int} {pc : Option Int} {sz : Int}
    {c : List PyRec} {k : Nat} {l : List Char}
    (h : hasInfix marker2 l = false) :
    stepLine ⟨6, ⟨stk, pc, some sz⟩, c, k⟩ l =
      Except.ok ⟨6, ⟨trimCommit stk sz, pc, some sz⟩, c, k + 1⟩ := by
  simp [stepLine, h]

/-! Well-formed pause events.  A well-formed event supplies the marker
line, the skipped source-location line, the address line, the scalar
line, the three word-dump lines and one following line (the line on
which state 6 commits), together with the values the numeric lines
parse to: a for the leading address, d for the scalar, and x i, y i for
the two words of dump line i, so that the raw window in reading order
is x1, y1, x2, y2, x3, y3. -/

structure EventData where
  mark : List Char
  hdr : List Char
  addr : List Char
  depth : List Char
  w1 : List Char
  w2 : List Char
  w3 : List Char
  trail : List Char
  a : Int
  d : Int
  x1 : Int
  y1 : Int
  x2 : Int
  y2 : Int
  x3 : Int
  y3 : Int

/-- The seven lines of the event up to and including the third word dump. -/
def coreLines (e : EventData) : List (List Char) :=
  [e.mark, e.hdr, e.addr, e.depth, e.w1, e.w2, e.w3]

/-- The event lines followed by the one line on which state 6 commits. -/
def eventLines (e : EventData) : List (List Char) :=
  coreLines e ++ [e.trail]

/-- The raw six-word window in reading order. -/
def rawStack (e : EventData) : List Int := [e.x1, e.y1, e.x2, e.y2, e.x3, e.y3]

/-- The dictionary as it stands after the third dump line, before state 6. -/
def rawRec (e : EventData) : PyRec :=
  { stack := rawStack e, pc := some (e.a - 1), stack_sz := some (e.d - 1) }

/-- The dictionary as emitted: the trimmed window plus the two corrected scalars. -/
def recOf (e : EventData) : PyRec :=
  { stack := trimCommit (rawStack e) (e.d - 1), pc := some (e.a - 1),
    stack_sz := some (e.d - 1) }

/-- Well-formedness of the seven core lines: the marker line carries both
marker substrings, no later line carries the short marker, and the three
kinds of numeric lines parse to the stated values. -/
def EventData.wfCore (e : EventData) : Prop :=
  hasInfix marker1 e.mark = true ∧
  hasInfix marker2 e.mark = true ∧
  hasInfix marker2 e.hdr = false ∧
  hasInfix marker2 e.addr = false ∧
  hasInfix marker2 e.depth = false ∧
  hasInfix marker2 e.w1 = false ∧
  hasInfix marker2 e.w2 = false ∧
  hasInfix marker2 e.w3 = false ∧
  pcField e.addr = Except.ok e.a ∧
  szField e.depth = Except.ok e.d ∧
  dumpFields e.w1 = Except.ok (e.x1, e.y1) ∧
  dumpFields e.w2 = Except.ok (e.x2, e.y2) ∧
  dumpFields e.w3 = Except.ok (e.x3, e.y3)

/-- Full well-formedness: the committing line must not carry the marker. -/
def EventData.wf (e : EventData) : Prop :=
  e.wfCore ∧ hasInfix marker2 e.trail = false

/-- In state -1 a line without the long marker leaves the initial state unchanged. -/
theorem step_seek_init {l : List Char} (h : hasInfix marker1 l = false) :
    stepLine initSt l = Except.ok initSt := step_seek h

/-- Lines before the first marker are discarded. -/
theorem fold_skip_pre (pre rest : List (List Char))
    (h : ∀ l ∈ pre, hasInfix marker1 l = false) :
    List.foldlM stepLine initSt (pre ++ rest) = List.foldlM stepLine initSt rest := by
  induction pre with
  | nil => simp
  | cons p ps ih =>
    simp only [List.cons_append]
    rw [foldlM_cons_ok (step_seek_init (h p (by simp)))]
    exact ih (fun l hl => h l (by simp [hl]))

/-- Running the seven core lines of a well-formed event from any state:
the pending appends of the previous dictionary are materialised by the
marker line, and the scanner ends up in state 6 holding the raw record. -/
theorem fold_core (st : ScanSt) (e : EventData) (rest : List (List Char))
    (h : e.wfCore) :
    List.foldlM stepLine st (coreLines e ++ rest) =
      List.foldlM stepLine ⟨6, rawRec e, flush st, 0⟩ rest := by
  obtain ⟨h1, h2, hh, ha, hd, hw1, hw2, hw3, hpa, hsd, hd1, hd2, hd3⟩ := h
  simp only [coreLines, List.cons_append, List.nil_append]
  rw [foldlM_cons_ok (step_marker st h1 h2),
      foldlM_cons_ok (step_state0 hh),
      foldlM_cons_ok (step_state1 ha hpa),
      foldlM_cons_ok (step_state2 hd hsd),
      foldlM_cons_ok (step_state3 hw1 hd1),
      foldlM_cons_ok (step_state4 hw2 hd2),
      foldlM_cons_ok (step_state5 hw3 hd3)]
  simp [rawRec, rawStack]

/-- Running all eight lines of a well-formed event from any state: the
committing line fires once, so the new dictionary has one pending append. -/
theorem fold_event (st : ScanSt) (e : EventData) (rest : List (List Char))
    (h : e.wf) :
    List.foldlM stepLine st (eventLines e ++ rest) =
      List.foldlM stepLine ⟨6, recOf e, flush st, 1⟩ rest := by
  obtain ⟨hc, ht⟩ := h
  simp only [eventLines, List.append_assoc, List.cons_append, List.nil_append]
  rw [fold_core st e _ hc]
  simp only [rawRec]
  rw [foldlM_cons_ok (step_state6 ht)]
  simp [recOf, rawStack]

/-- Effect of one whole event on the scanner state, as a pure function. -/
def stepEvent (st : ScanSt) (e : EventData) : ScanSt :=
  ⟨6, recOf e, flush st, 1⟩

/-- Running any number of consecutive well-formed events folds stepEvent. -/
theorem fold_events (evs : List EventData) :
    ∀ (st : ScanSt) (rest : List (List Char)), (∀ e ∈ evs, e.wf) →
    List.foldlM stepLine st (evs.flatMap eventLines ++ rest) =
      List.foldlM stepLine (evs.foldl stepEvent st) rest := by
  induction evs with
  | nil => intro st rest _; simp
  | cons e es ih =>
    intro st rest h
    simp only [List.flatMap_cons, List.append_assoc]
    rw [fold_event st e _ (h e (by simp))]
    rw [ih _ rest (fun x hx => h x (by simp [hx]))]
    rfl

/-- The res entries produced by a run of events: one record per event, in order. -/
theorem flush_foldl (evs : List EventData) :
    ∀ st : ScanSt, flush (evs.foldl stepEvent st) = flush st ++ evs.map recOf := by
  induction evs with
  | nil => intro st; simp
  | cons e es ih =>
    intro st
    simp only [List.foldl_cons, List.map_cons]
    rw [ih]
    simp [stepEvent, flush]

/-- Lines in state 6 that do not carry the marker: each one re-trims the
word list in place and appends the dictionary once more. -/
theorem fold_trail (ts : List (List Char)) :
    ∀ (stk : List Int) (pc : Option Int) (sz : Int) (c : List PyRec) (k : Nat)
      (rest : List (List Char)),
    (∀ l ∈ ts, hasInfix marker2 l = false) →
    List.foldlM stepLine ⟨6, ⟨stk, pc, some sz⟩, c, k⟩ (ts ++ rest) =
      List.foldlM stepLine
        ⟨6, ⟨(fun s => trimCommit s sz)^[ts.length] stk, pc, some sz⟩, c,
          k + ts.length⟩ rest := by
  induction ts with
  | nil => intro stk pc sz c k rest _; simp
  | cons t ts2 ih =>
    intro stk pc sz c k rest h
    simp only [List.cons_append]
    rw [foldlM_cons_ok (step_state6 (h t (by simp)))]
    rw [ih (trimCommit stk sz) pc sz c (k + 1) rest (fun l hl => h l (by simp [hl]))]
    have hk : k + 1 + ts2.length = k + (t :: ts2).length := by
      simp only [List.length_cons]; omega
    have hstk : (fun s => trimCommit s sz)^[ts2.length] (trimCommit stk sz) =
        (fun s => trimCommit s sz)^[(t :: ts2).length] stk := by
      simp only [List.length_cons]
      rw [Function.iterate_succ_apply]
    rw [hk, hstk]

/-- A scan whose fold succeeds returns the final res. -/
theorem scanLines_ok {lines : List (List Char)} {S : ScanSt}
    (h : List.foldlM stepLine initSt lines = Except.ok S) :
    scanLines lines = Except.ok (flush S) := by
  unfold scanLines; rw [h]

/-- A scan whose fold dies propagates the exception. -/
theorem scanLines_err {lines : List (List Char)} {e : PyErr}
    (h : List.foldlM stepLine initSt lines = Except.error e) :
    scanLines lines = Except.error e := by
  unfold scanLines; rw [h]

/-- The scan of junk lines, then any number of well-formed events. -/
theorem scan_events (pre : List (List Char)) (evs : List EventData)
    (hpre : ∀ l ∈ pre, hasInfix marker1 l = false) (h : ∀ e ∈ evs, e.wf) :
    scanLines (pre ++ evs.flatMap eventLines) = Except.ok (evs.map recOf) := by
  have h1 : pre ++ evs.flatMap eventLines =
      pre ++ (evs.flatMap eventLines ++ []) := by simp
  rw [h1]
  have h2 := fold_skip_pre pre (evs.flatMap eventLines ++ []) hpre
  rw [scanLines_ok (by rw [h2, fold_events evs initSt [] h, foldlM_nil])]
  rw [flush_foldl]
  simp [flush, initSt]

/-- The scan of a single well-formed event with junk before it. -/
theorem scan_single (pre : List (List Char)) (e : EventData)
    (hpre : ∀ l ∈ pre, hasInfix marker1 l = false) (h : e.wf) :
    scanLines (pre ++ eventLines e) = Except.ok [recOf e] := by
  have h1 : pre ++ eventLines e = pre ++ [e].flatMap eventLines := by simp
  rw [h1, scan_events pre [e] hpre (by simpa using h)]
  simp

/-! Arithmetic of the trim step on a full six-word window. -/

/-- With stack_sz at least 6 the else branch keeps the LAST five raw words
in reading order (the first reversal is undone by the second). -/
theorem trimCommit_ge6 {a b c d e f sz : Int} (h : 6 ≤ sz) :
    trimCommit [a, b, c, d, e, f] sz = [b, c, d, e, f] := by
  simp only [trimCommit, List.reverse_cons, List.reverse_nil, List.nil_append,
    List.cons_append, List.length_cons, List.length_nil]
  rw [if_neg (by push_cast; omega)]
  norm_num [pySliceTo, show Int.toNat 5 = 5 from rfl]

/-- With stack_sz between 0 and 5 the emitted words are the last stack_sz
raw words in reading order. -/
theorem trimCommit_0to5 {a b c d e f sz : Int} (h0 : 0 ≤ sz) (h : sz < 6) :
    trimCommit [a, b, c, d, e, f] sz =
      List.drop (6 - sz.toNat) [a, b, c, d, e, f] := by
  interval_cases sz <;>
    norm_num [trimCommit, pySliceTo, show Int.toNat 0 = 0 from rfl,
      show Int.toNat 1 = 1 from rfl, show Int.toNat 2 = 2 from rfl,
      show Int.toNat 3 = 3 from rfl, show Int.toNat 4 = 4 from rfl,
      show Int.toNat 5 = 5 from rfl]

/-- With negative stack_sz the Python slice drops elements from the end,
so the result keeps the last 6 + stack_sz raw words (clamped at none). -/
theorem trimCommit_neg {a b c d e f sz : Int} (h : sz < 0) :
    trimCommit [a, b, c, d, e, f] sz =
      (List.take (6 + sz).toNat [f, e, d, c, b, a]).reverse := by
  simp only [trimCommit, List.reverse_cons, List.reverse_nil, List.nil_append,
    List.cons_append, List.length_cons, List.length_nil]
  rw [if_pos (by push_cast; omega)]
  rw [pySliceTo, if_neg (by omega)]
  norm_num

/-- Length of the emitted word list when stack_sz is below 6. -/
theorem trimCommit_lt6_length {a b c d e f sz : Int} (h : sz < 6) :
    (trimCommit [a, b, c, d, e, f] sz).length =
      (if 0 ≤ sz then sz else 6 + sz).toNat := by
  by_cases h0 : 0 ≤ sz
  · rw [trimCommit_0to5 h0 h, if_pos h0]
    simp only [List.length_drop, List.length_cons, List.length_nil]
    omega
  · rw [trimCommit_neg (by omega), if_neg h0]
    simp only [List.length_reverse, List.length_take, List.length_cons,
      List.length_nil]
    omega

/-! Concrete transcript material used by witnesses and counterexamples. -/

/-- A realistic breakpoint-hit line. -/
def mkLineC : List Char :=
  ("Breakpoint 2, execute_stack_op (op_ptr=0x40025d) at unwind-dw2.c:536").toList

/-- The source-location line that follows the marker. -/
def hdrLineC : List Char := ("536     in unwind-dw2.c").toList

/-- The address line of the concrete scenarios of the claims. -/
def addrLineC : List Char := ("0x40025d:   0x08").toList

/-- Scalar line with raw counter 2 (corrected depth 1). -/
def depthLine2C : List Char := ("$3 = 0x2").toList

/-- Scalar line with raw counter 8 (corrected depth 7). -/
def depthLine8C : List Char := ("$3 = 0x8").toList

/-- Scalar line with raw counter 0 (corrected depth -1). -/
def depthLine0C : List Char := ("$3 = 0x0").toList

/-- First dump line, words 10 and 11. -/
def dumpLine1C : List Char := ("0x7fffffde90:\t0xa\t0xb").toList

/-- Second dump line, words 12 and 13. -/
def dumpLine2C : List Char := ("0x7fffffdea0:\t0xc\t0xd").toList

/-- Third dump line, words 14 and 15. -/
def dumpLine3C : List Char := ("0x7fffffdeb0:\t0xe\t0xf").toList

/-- An empty line, as produced by a trailing newline of the transcript. -/
def emptyLineC : List Char := []

/-- An address line whose leading colon-field does not parse. -/
def badAddrLineC : List Char := ("zz: 1").toList

/-- Concrete event with raw window 10..15 and raw counter 2. -/
def evDepth2 : EventData :=
  { mark := mkLineC, hdr := hdrLineC, addr := addrLineC, depth := depthLine2C,
    w1 := dumpLine1C, w2 := dumpLine2C, w3 := dumpLine3C, trail := emptyLineC,
    a := 0x40025d, d := 2, x1 := 10, y1 := 11, x2 := 12, y2 := 13,
    x3 := 14, y3 := 15 }

/-- Same event with raw counter 8. -/
def evDepth8 : EventData := { evDepth2 with depth := depthLine8C, d := 8 }

/-- Same event with raw counter 0. -/
def evDepth0 : EventData := { evDepth2 with depth := depthLine0C, d := 0 }

/-- The concrete events are well formed. -/
theorem evDepth2_wf : evDepth2.wf :=
  ⟨⟨rfl, rfl, rfl, rfl, rfl, rfl, rfl, rfl, rfl, rfl, rfl, rfl, rfl⟩, rfl⟩

/-- Well-formedness of the raw-counter-8 event. -/
theorem evDepth8_wf : evDepth8.wf :=
  ⟨⟨rfl, rfl, rfl, rfl, rfl, rfl, rfl, rfl, rfl, rfl, rfl, rfl, rfl⟩, rfl⟩

/-- Well-formedness of the raw-counter-0 event. -/
theorem evDepth0_wf : evDepth0.wf :=
  ⟨⟨rfl, rfl, rfl, rfl, rfl, rfl, rfl, rfl, rfl, rfl, rfl, rfl, rfl⟩, rfl⟩

/-! Claims C1, C3, C5: the normalization rule. -/

/-- Transcript of one event with raw window 10..15 and corrected depth 7. -/
def ct1 : List (List Char) :=
  [mkLineC, hdrLineC, addrLineC, depthLine8C, dumpLine1C, dumpLine2C,
   dumpLine3C, emptyLineC]

/-- C1 counterexample: raw window [10,11,12,13,14,15] with reportedDepth 7
emits stackWords [11,12,13,14,15] - the LAST five raw words in reading
order (the two reversals cancel) - not [14,13,12,11,10] as claimed. -/
theorem C1_counterexample :
    scanLines ct1 =
      Except.ok [⟨[11, 12, 13, 14, 15], some 0x40025c, some 7⟩] ∧
    ([11, 12, 13, 14, 15] : List Int) ≠ [14, 13, 12, 11, 10] :=
  ⟨rfl, by decide⟩

/-- C1 amended: for every well-formed single-event transcript whose
corrected reportedDepth is at least 6, the emitted stackWords is the last
5 raw words in original reading order, [W1, W2, W3, W4, W5]; concretely,
window [10,11,12,13,14,15] with reportedDepth 7 yields [11,12,13,14,15]. -/
theorem C1_deep_window_keeps_last_five (pre : List (List Char)) (e : EventData)
    (hpre : ∀ l ∈ pre, hasInfix marker1 l = false) (hwf : e.wf)
    (h6 : 6 ≤ e.d - 1) :
    scanLines (pre ++ eventLines e) =
      Except.ok [⟨[e.y1, e.x2, e.y2, e.x3, e.y3], some (e.a - 1),
        some (e.d - 1)⟩] := by
  rw [scan_single pre e hpre hwf]
  simp only [recOf, rawStack]
  rw [trimCommit_ge6 h6]

/-- C1 witness: the amended statement at the concrete deep event. -/
theorem C1_witness :
    scanLines (eventLines evDepth8) =
      Except.ok [⟨[11, 12, 13, 14, 15], some 0x40025c, some 7⟩] :=
  C1_deep_window_keeps_last_five [] evDepth8 (by simp) evDepth8_wf (by decide)

/-- Transcript of one event with raw window 10..15 and raw counter 0. -/
def ct3 : List (List Char) :=
  [mkLineC, hdrLineC, addrLineC, depthLine0C, dumpLine1C, dumpLine2C,
   dumpLine3C, emptyLineC]

/-- C3 counterexample: a raw printed counter of 0 gives corrected depth -1,
and the Python slice stack[:-1] keeps five words, so stackWords is
[11,12,13,14,15], not empty as the claim states. -/
theorem C3_counterexample :
    scanLines ct3 =
      Except.ok [⟨[11, 12, 13, 14, 15], some 0x40025c, some (-1)⟩] ∧
    ([11, 12, 13, 14, 15] : List Int) ≠ [] :=
  ⟨rfl, by decide⟩

/-- C3 amended: with corrected reportedDepth below 6, stackWords has
exactly reportedDepth elements when reportedDepth is at least 0 (empty at
0), but for negative reportedDepth the Python slice drops from the end,
leaving 6 + reportedDepth elements (clamped at zero), so a raw counter of
0 (reportedDepth -1) yields five words, not none. -/
theorem C3_stack_length_small_depth (pre : List (List Char)) (e : EventData)
    (hpre : ∀ l ∈ pre, hasInfix marker1 l = false) (hwf : e.wf)
    (h6 : e.d - 1 < 6) :
    scanLines (pre ++ eventLines e) = Except.ok [recOf e] ∧
    (recOf e).stack.length =
      (if 0 ≤ e.d - 1 then e.d - 1 else 6 + (e.d - 1)).toNat := by
  refine ⟨scan_single pre e hpre hwf, ?_⟩
  simp only [recOf, rawStack]
  exact trimCommit_lt6_length h6

/-- C3 witness: the raw-counter-0 event yields five stack words. -/
theorem C3_witness :
    scanLines (eventLines evDepth0) = Except.ok [recOf evDepth0] ∧
    (recOf evDepth0).stack.length = 5 :=
  C3_stack_length_small_depth [] evDepth0 (by simp) evDepth0_wf (by decide)

/-- C5: for every well-formed single-event transcript with corrected
reportedDepth d, 0 ≤ d < 6, the emitted stackWords is exactly the last d
raw words in original reading order (drop (6 - d) of the window) and has
length exactly d. -/
theorem C5_small_depth_last_d_words (pre : List (List Char)) (e : EventData)
    (hpre : ∀ l ∈ pre, hasInfix marker1 l = false) (hwf : e.wf)
    (h0 : 0 ≤ e.d - 1) (h6 : e.d - 1 < 6) :
    scanLines (pre ++ eventLines e) =
      Except.ok [⟨List.drop (6 - (e.d - 1).toNat) (rawStack e),
        some (e.a - 1), some (e.d - 1)⟩] ∧
    (List.drop (6 - (e.d - 1).toNat) (rawStack e)).length = (e.d - 1).toNat := by
  constructor
  · rw [scan_single pre e hpre hwf]
    simp only [recOf, rawStack]
    rw [trimCommit_0to5 h0 h6]
  · simp only [rawStack, List.length_drop, List.length_cons, List.length_nil]
    omega

/-- C5 witness: raw window [10..15] with reportedDepth 1 yields [15]. -/
theorem C5_witness :
    scanLines (eventLines evDepth2) =
      Except.ok [⟨[15], some 0x40025c, some 1⟩] ∧
    ([15] : List Int).length = 1 :=
  C5_small_depth_last_d_words [] evDepth2 (by simp) evDepth2_wf
    (by decide) (by decide)

/-! Claim C2: when the record is committed. -/

/-- Transcript of one event that ends right after the third dump line. -/
def ct2 : List (List Char) :=
  [mkLineC, hdrLineC, addrLineC, depthLine2C, dumpLine1C, dumpLine2C,
   dumpLine3C]

/-- C2 counterexample: a well-formed transcript ending immediately after
the third word-dump line of its final event yields NO record for that
event (the claim says it still yields one): the commit of state 6 only
happens while consuming a further input line. -/
theorem C2_counterexample :
    scanLines ct2 = Except.ok [] ∧ ([] : List PyRec).length ≠ 1 :=
  ⟨rfl, by decide⟩

/-- C2 amended: after the third word-dump line the scanner sits in the
commit state but emits nothing yet; the record is emitted on consuming a
further line without the marker substring, and the scanner does not
return to seeking. A transcript that ends immediately after the third
dump line of its final event yields no record for that event, while one
more trailing line yields the record. -/
theorem C2_commit_needs_following_line (pre : List (List Char)) (e : EventData)
    (hpre : ∀ l ∈ pre, hasInfix marker1 l = false) (hwf : e.wf) :
    scanLines (pre ++ coreLines e) = Except.ok [] ∧
    scanLines (pre ++ eventLines e) = Except.ok [recOf e] := by
  constructor
  · have h1 : pre ++ coreLines e = pre ++ (coreLines e ++ []) := by simp
    rw [h1]
    rw [scanLines_ok (by
      rw [fold_skip_pre pre _ hpre, fold_core initSt e [] hwf.1, foldlM_nil])]
    simp [flush, initSt]
  · exact scan_single pre e hpre hwf

/-- C2 witness: the concrete event, truncated and complete. -/
theorem C2_witness :
    scanLines (coreLines evDepth2) = Except.ok [] ∧
    scanLines (eventLines evDepth2) =
      Except.ok [⟨[15], some 0x40025c, some 1⟩] :=
  C2_commit_needs_following_line [] evDepth2 (by simp) evDepth2_wf

/-! Claim C9: one record appended per line while sitting in state 6. -/

/-- C9: after the third dump line, k consecutive marker-free lines cause
k appended records for the event (all aliases of the one dictionary,
whose word list has been re-trimmed k times). -/
theorem C9_one_record_per_line_after_dump (pre : List (List Char))
    (e : EventData) (ts : List (List Char)) (k : Nat)
    (hpre : ∀ l ∈ pre, hasInfix marker1 l = false) (hwf : e.wfCore)
    (hts : ∀ l ∈ ts, hasInfix marker2 l = false) (hk : ts.length = k)
    (h2 : 2 ≤ k) :
    scanLines (pre ++ (coreLines e ++ ts)) =
      Except.ok (List.replicate k
        ⟨(fun s => trimCommit s (e.d - 1))^[k] (rawStack e),
          some (e.a - 1), some (e.d - 1)⟩) := by
  subst hk
  rw [scanLines_ok (by
    rw [fold_skip_pre pre _ hpre]
    have h1 : coreLines e ++ ts = coreLines e ++ (ts ++ []) := by simp
    rw [h1, fold_core initSt e _ hwf]
    simp only [rawRec]
    rw [fold_trail ts _ _ _ _ _ [] hts, foldlM_nil])]
  simp [flush, initSt]

/-- C9 witness: two trailing lines yield two identical records. -/
theorem C9_witness :
    scanLines (coreLines evDepth2 ++ [emptyLineC, hdrLineC]) =
      Except.ok [⟨[15], some 0x40025c, some 1⟩,
        ⟨[15], some 0x40025c, some 1⟩] :=
  C9_one_record_per_line_after_dump [] evDepth2 [emptyLineC, hdrLineC] 2
    (by simp) evDepth2_wf.1 (by decide) rfl (by decide)

/-! Claim C10: the marker substring restarts the event in every state. -/

/-- C10: once scanning has begun, a line with the short marker substring
resets the scanner to a fresh dictionary in state 0 from any state, and
an event whose six raw words were all read but whose commit line never
came contributes nothing to the output: only the following event is
emitted. -/
theorem C10_marker_restarts_event :
    (∀ (st : ScanSt) (l : List Char), st.state ≠ -1 →
      hasInfix marker2 l = true →
      stepLine st l = Except.ok ⟨0, ⟨[], none, none⟩, flush st, 0⟩) ∧
    (∀ (pre : List (List Char)) (e1 e2 : EventData),
      (∀ l ∈ pre, hasInfix marker1 l = false) → e1.wfCore → e2.wf →
      scanLines (pre ++ (coreLines e1 ++ eventLines e2)) =
        Except.ok [recOf e2]) := by
  constructor
  · exact fun st l h0 h2 => step_marker_started st h0 h2
  · intro pre e1 e2 hpre h1 h2
    rw [scanLines_ok (by
      rw [fold_skip_pre pre _ hpre]
      have ha : coreLines e1 ++ eventLines e2 =
          coreLines e1 ++ (eventLines e2 ++ []) := by simp
      rw [ha, fold_core initSt e1 _ h1]
      rw [fold_event _ e2 [] h2, foldlM_nil])]
    simp [flush, initSt]

/-- C10 witness: a fully read but uncommitted event followed by a marker
line contributes nothing; the new event is the only record. -/
theorem C10_witness :
    scanLines (coreLines evDepth8 ++ eventLines evDepth2) =
      Except.ok [⟨[15], some 0x40025c, some 1⟩] :=
  C10_marker_restarts_event.2 [] evDepth8 evDepth2 (by simp)
    evDepth8_wf.1 evDepth2_wf

/-! Claim C6: the minus-one corrections of the two scalars. -/

/-- C6: in every well-formed transcript, each pause event's record carries
pc equal to the parsed leading address of its address line minus 1, and
stack_sz equal to the parsed scalar of its depth line minus 1. -/
theorem C6_minus_one_corrections (pre : List (List Char)) (evs : List EventData)
    (hpre : ∀ l ∈ pre, hasInfix marker1 l = false) (h : ∀ e ∈ evs, e.wf) :
    scanLines (pre ++ evs.flatMap eventLines) =
      Except.ok (evs.map (fun e =>
        ⟨trimCommit (rawStack e) (e.d - 1), some (e.a - 1), some (e.d - 1)⟩)) := by
  rw [scan_events pre evs hpre h]
  rfl

/-- C6 witness: address line 0x40025d:   0x08 gives pc 0x40025c and
scalar line $3 = 0x2 gives stack_sz 1, across two events. -/
theorem C6_witness :
    scanLines (List.flatMap [evDepth2, evDepth8] eventLines) =
      Except.ok [⟨[15], some 0x40025c, some 1⟩,
        ⟨[11, 12, 13, 14, 15], some 0x40025c, some 7⟩] :=
  C6_minus_one_corrections [] [evDepth2, evDepth8] (by simp)
    (by
      intro x hx
      simp only [List.mem_cons, List.not_mem_nil, or_false] at hx
      rcases hx with rfl | rfl
      · exact evDepth2_wf
      · exact evDepth8_wf)

/-! Claim C8: transcripts without the long marker. -/

/-- C8: any transcript none of whose lines contains the long marker
substring (in particular the empty transcript) scans to an empty record
sequence without error. -/
theorem C8_no_marker_empty_result (lines : List (List Char))
    (h : ∀ l ∈ lines, hasInfix marker1 l = false) :
    scanLines lines = Except.ok [] := by
  have h1 : lines = lines ++ [] := by simp
  rw [h1]
  rw [scanLines_ok (by rw [fold_skip_pre lines [] h, foldlM_nil])]
  simp [flush, initSt]

/-- C8 witness: three marker-free lines scan to the empty sequence. -/
theorem C8_witness :
    scanLines [hdrLineC, addrLineC, emptyLineC] = Except.ok [] :=
  C8_no_marker_empty_result [hdrLineC, addrLineC, emptyLineC] (by decide)

/-! Claim C4: a truncated trailing event. -/

/-- Flushing a state without pending appends returns its committed entries. -/
theorem flush_zero (s : Int) (r : PyRec) (C : List PyRec) :
    flush ⟨s, r, C, 0⟩ = C := by simp [flush]

/-- Transcript with one complete event whose committing line is the next
marker, followed by a truncated event. -/
def ct4 : List (List Char) :=
  [mkLineC, hdrLineC, addrLineC, depthLine2C, dumpLine1C, dumpLine2C,
   dumpLine3C, mkLineC, hdrLineC]

/-- C4 counterexample: one complete pause event whose third dump line is
immediately followed by the next marker, then truncation: the claim
demands exactly one record, but the scan returns none, because the
complete event was never committed before the marker discarded it. -/
theorem C4_counterexample :
    scanLines ct4 = Except.ok [] ∧ ([] : List PyRec).length ≠ 1 :=
  ⟨rfl, by decide⟩

/-- C4 amended: the scan of N complete events, each followed by exactly
one marker-free line, then a final event truncated before its third dump
line, succeeds and returns exactly the N records of the complete events;
the partially-built final record is discarded silently.  (Without the one
trailing line per event the record of a complete event is itself
discarded by the next marker, and extra trailing lines duplicate it.) -/
theorem C4_truncated_final_event_discarded (pre : List (List Char))
    (evs : List EventData) (e : EventData) (cut : Nat)
    (hpre : ∀ l ∈ pre, hasInfix marker1 l = false) (h : ∀ x ∈ evs, x.wf)
    (he : e.wfCore) (hclo : 1 ≤ cut) (hchi : cut ≤ 6) :
    scanLines (pre ++ (evs.flatMap eventLines ++ (coreLines e).take cut)) =
      Except.ok (evs.map recOf) := by
  obtain ⟨hm1, hm2, hh, ha, hd, hw1, hw2, hw3, hpa, hsd, hd1, hd2, hd3⟩ := he
  interval_cases cut
  · rw [scanLines_ok (by
      rw [fold_skip_pre pre _ hpre, fold_events evs initSt _ h]
      rw [show (coreLines e).take 1 = [e.mark] from rfl]
      rw [foldlM_cons_ok (step_marker _ hm1 hm2), foldlM_nil])]
    rw [flush_zero, flush_foldl evs initSt]
    simp [flush, initSt]
  · rw [scanLines_ok (by
      rw [fold_skip_pre pre _ hpre, fold_events evs initSt _ h]
      rw [show (coreLines e).take 2 = [e.mark, e.hdr] from rfl]
      rw [foldlM_cons_ok (step_marker _ hm1 hm2),
          foldlM_cons_ok (step_state0 hh), foldlM_nil])]
    rw [flush_zero, flush_foldl evs initSt]
    simp [flush, initSt]
  · rw [scanLines_ok (by
      rw [fold_skip_pre pre _ hpre, fold_events evs initSt _ h]
      rw [show (coreLines e).take 3 = [e.mark, e.hdr, e.addr] from rfl]
      rw [foldlM_cons_ok (step_marker _ hm1 hm2),
          foldlM_cons_ok (step_state0 hh),
          foldlM_cons_ok (step_state1 ha hpa), foldlM_nil])]
    rw [flush_zero, flush_foldl evs initSt]
    simp [flush, initSt]
  · rw [scanLines_ok (by
      rw [fold_skip_pre pre _ hpre, fold_events evs initSt _ h]
      rw [show (coreLines e).take 4 = [e.mark, e.hdr, e.addr, e.depth] from rfl]
      rw [foldlM_cons_ok (step_marker _ hm1 hm2),
          foldlM_cons_ok (step_state0 hh),
          foldlM_cons_ok (step_state1 ha hpa),
          foldlM_cons_ok (step_state2 hd hsd), foldlM_nil])]
    rw [flush_zero, flush_foldl evs initSt]
    simp [flush, initSt]
  · rw [scanLines_ok (by
      rw [fold_skip_pre pre _ hpre, fold_events evs initSt _ h]
      rw [show (coreLines e).take 5 =
          [e.mark, e.hdr, e.addr, e.depth, e.w1] from rfl]
      rw [foldlM_cons_ok (step_marker _ hm1 hm2),
          foldlM_cons_ok (step_state0 hh),
          foldlM_cons_ok (step_state1 ha hpa),
          foldlM_cons_ok (step_state2 hd hsd),
          foldlM_cons_ok (step_state3 hw1 hd1), foldlM_nil])]
    rw [flush_zero, flush_foldl evs initSt]
    simp [flush, initSt]
  · rw [scanLines_ok (by
      rw [fold_skip_pre pre _ hpre, fold_events evs initSt _ h]
      rw [show (coreLines e).take 6 =
          [e.mark, e.hdr, e.addr, e.depth, e.w1, e.w2] from rfl]
      rw [foldlM_cons_ok (step_marker _ hm1 hm2),
          foldlM_cons_ok (step_state0 hh),
          foldlM_cons_ok (step_state1 ha hpa),
          foldlM_cons_ok (step_state2 hd hsd),
          foldlM_cons_ok (step_state3 hw1 hd1),
          foldlM_cons_ok (step_state4 hw2 hd2), foldlM_nil])]
    rw [flush_zero, flush_foldl evs initSt]
    simp [flush, initSt]

/-- C4 witness: one complete event then a final event cut after its first
dump line yields exactly the one complete record. -/
theorem C4_witness :
    scanLines (List.flatMap [evDepth2] eventLines ++
        (coreLines evDepth8).take 5) =
      Except.ok [⟨[15], some 0x40025c, some 1⟩] :=
  C4_truncated_final_event_discarded [] [evDepth2] evDepth8 5 (by simp)
    (by
      intro x hx
      simp only [List.mem_cons, List.not_mem_nil, or_false] at hx
      rcases hx with rfl
      exact evDepth2_wf)
    evDepth8_wf.1 (by decide) (by decide)


/-! Claim C7: malformed numeric lines. -/

/-- Shortest transcript dying on the malformed address line (position 2). -/
def ct7a : List (List Char) := [mkLineC, hdrLineC, badAddrLineC]

/-- Transcript dying on the same malformed address line at position 4,
with a further line behind it. -/
def ct7b : List (List Char) :=
  [hdrLineC, emptyLineC, mkLineC, hdrLineC, badAddrLineC, addrLineC]

/-- A third dump line whose first word field does not parse. -/
def badDumpLineC : List Char := ("0x7fffffdeb0:\t0xzz\t0xf").toList

/-- C7 counterexample: the fatal error raised on a malformed numeric line
carries only the offending literal, not the position of the failing line:
two transcripts failing on the same literal at different positions abort
with identical errors, so the error cannot report the position the claim
says it reports. -/
theorem C7_counterexample :
    scanLines ct7a = Except.error (PyErr.valueError (("zz").toList)) ∧
    scanLines ct7b = Except.error (PyErr.valueError (("zz").toList)) ∧
    ct7a.length ≠ ct7b.length :=
  ⟨rfl, rfl, by decide⟩

/-- C7 amended: in any transcript - junk lines, then any number of
complete well-formed events, then one more event whose lines are well
formed up to a line that fails its numeric extraction - the scan aborts
with the Python exception of that extraction (which identifies the
offending literal but not its position), whatever lines follow.  The five
conjuncts place the malformed line at each of the five extraction steps:
the address line, the scalar depth line, and the first, second and third
word-dump lines.  Nothing is returned even when earlier events had
already produced records, and no malformed line is skipped. -/
theorem C7_malformed_numeric_aborts :
    (∀ (pre : List (List Char)) (evs : List EventData) (mk0 hdr bad : List Char)
       (rest : List (List Char)) (err : PyErr),
      (∀ l ∈ pre, hasInfix marker1 l = false) → (∀ x ∈ evs, x.wf) →
      hasInfix marker1 mk0 = true → hasInfix marker2 mk0 = true →
      hasInfix marker2 hdr = false → hasInfix marker2 bad = false →
      pcField bad = Except.error err →
      scanLines (pre ++ (evs.flatMap eventLines ++ mk0 :: hdr :: bad :: rest)) =
        Except.error err) ∧
    (∀ (pre : List (List Char)) (evs : List EventData)
       (mk0 hdr addr bad : List Char) (rest : List (List Char))
       (a : Int) (err : PyErr),
      (∀ l ∈ pre, hasInfix marker1 l = false) → (∀ x ∈ evs, x.wf) →
      hasInfix marker1 mk0 = true → hasInfix marker2 mk0 = true →
      hasInfix marker2 hdr = false → hasInfix marker2 addr = false →
      hasInfix marker2 bad = false →
      pcField addr = Except.ok a → szField bad = Except.error err →
      scanLines (pre ++ (evs.flatMap eventLines ++
          mk0 :: hdr :: addr :: bad :: rest)) = Except.error err) ∧
    (∀ (pre : List (List Char)) (evs : List EventData)
       (mk0 hdr addr dep bad : List Char) (rest : List (List Char))
       (a d : Int) (err : PyErr),
      (∀ l ∈ pre, hasInfix marker1 l = false) → (∀ x ∈ evs, x.wf) →
      hasInfix marker1 mk0 = true → hasInfix marker2 mk0 = true →
      hasInfix marker2 hdr = false → hasInfix marker2 addr = false →
      hasInfix marker2 dep = false → hasInfix marker2 bad = false →
      pcField addr = Except.ok a → szField dep = Except.ok d →
      dumpFields bad = Except.error err →
      scanLines (pre ++ (evs.flatMap eventLines ++
          mk0 :: hdr :: addr :: dep :: bad :: rest)) = Except.error err) ∧
    (∀ (pre : List (List Char)) (evs : List EventData)
       (mk0 hdr addr dep w1 bad : List Char) (rest : List (List Char))
       (a d v11 v12 : Int) (err : PyErr),
      (∀ l ∈ pre, hasInfix marker1 l = false) → (∀ x ∈ evs, x.wf) →
      hasInfix marker1 mk0 = true → hasInfix marker2 mk0 = true →
      hasInfix marker2 hdr = false → hasInfix marker2 addr = false →
      hasInfix marker2 dep = false → hasInfix marker2 w1 = false →
      hasInfix marker2 bad = false →
      pcField addr = Except.ok a → szField dep = Except.ok d →
      dumpFields w1 = Except.ok (v11, v12) →
      dumpFields bad = Except.error err →
      scanLines (pre ++ (evs.flatMap eventLines ++
          mk0 :: hdr :: addr :: dep :: w1 :: bad :: rest)) =
        Except.error err) ∧
    (∀ (pre : List (List Char)) (evs : List EventData)
       (mk0 hdr addr dep w1 w2 bad : List Char) (rest : List (List Char))
       (a d v11 v12 v21 v22 : Int) (err : PyErr),
      (∀ l ∈ pre, hasInfix marker1 l = false) → (∀ x ∈ evs, x.wf) →
      hasInfix marker1 mk0 = true → hasInfix marker2 mk0 = true →
      hasInfix marker2 hdr = false → hasInfix marker2 addr = false →
      hasInfix marker2 dep = false → hasInfix marker2 w1 = false →
      hasInfix marker2 w2 = false → hasInfix marker2 bad = false →
      pcField addr = Except.ok a → szField dep = Except.ok d →
      dumpFields w1 = Except.ok (v11, v12) →
      dumpFields w2 = Except.ok (v21, v22) →
      dumpFields bad = Except.error err →
      scanLines (pre ++ (evs.flatMap eventLines ++
          mk0 :: hdr :: addr :: dep :: w1 :: w2 :: bad :: rest)) =
        Except.error err) := by
  refine ⟨?_, ?_, ?_, ?_, ?_⟩
  · intro pre evs mk0 hdr bad rest err hpre hevs h1 h2 hh hb hperr
    apply scanLines_err
    rw [fold_skip_pre pre _ hpre, fold_events evs initSt _ hevs]
    rw [foldlM_cons_ok (step_marker _ h1 h2)]
    rw [foldlM_cons_ok (step_state0 hh)]
    exact foldlM_cons_err (step_state1_err hb hperr)
  · intro pre evs mk0 hdr addr bad rest a err hpre hevs h1 h2 hh haa hb hpa hserr
    apply scanLines_err
    rw [fold_skip_pre pre _ hpre, fold_events evs initSt _ hevs]
    rw [foldlM_cons_ok (step_marker _ h1 h2)]
    rw [foldlM_cons_ok (step_state0 hh)]
    rw [foldlM_cons_ok (step_state1 haa hpa)]
    exact foldlM_cons_err (step_state2_err hb hserr)
  · intro pre evs mk0 hdr addr dep bad rest a d err hpre hevs h1 h2 hh haa hdp hb
      hpa hsd hderr
    apply scanLines_err
    rw [fold_skip_pre pre _ hpre, fold_events evs initSt _ hevs]
    rw [foldlM_cons_ok (step_marker _ h1 h2)]
    rw [foldlM_cons_ok (step_state0 hh)]
    rw [foldlM_cons_ok (step_state1 haa hpa)]
    rw [foldlM_cons_ok (step_state2 hdp hsd)]
    exact foldlM_cons_err (step_state3_err hb hderr)
  · intro pre evs mk0 hdr addr dep w1 bad rest a d v11 v12 err hpre hevs h1 h2 hh
      haa hdp hw1 hb hpa hsd hdf1 hderr
    apply scanLines_err
    rw [fold_skip_pre pre _ hpre, fold_events evs initSt _ hevs]
    rw [foldlM_cons_ok (step_marker _ h1 h2)]
    rw [foldlM_cons_ok (step_state0 hh)]
    rw [foldlM_cons_ok (step_state1 haa hpa)]
    rw [foldlM_cons_ok (step_state2 hdp hsd)]
    rw [foldlM_cons_ok (step_state3 hw1 hdf1)]
    exact foldlM_cons_err (step_state4_err hb hderr)
  · intro pre evs mk0 hdr addr dep w1 w2 bad rest a d v11 v12 v21 v22 err hpre
      hevs h1 h2 hh haa hdp hw1 hw2 hb hpa hsd hdf1 hdf2 hderr
    apply scanLines_err
    rw [fold_skip_pre pre _ hpre, fold_events evs initSt _ hevs]
    rw [foldlM_cons_ok (step_marker _ h1 h2)]
    rw [foldlM_cons_ok (step_state0 hh)]
    rw [foldlM_cons_ok (step_state1 haa hpa)]
    rw [foldlM_cons_ok (step_state2 hdp hsd)]
    rw [foldlM_cons_ok (step_state3 hw1 hdf1)]
    rw [foldlM_cons_ok (step_state4 hw2 hdf2)]
    exact foldlM_cons_err (step_state5_err hb hderr)

/-- C7 witness: after one complete event (which had already produced a
record), a second event whose third dump line does not parse aborts the
whole scan with the ValueError of the unparseable word field: the record
of the complete event is not returned. -/
theorem C7_witness :
    scanLines (List.flatMap [evDepth2] eventLines ++
        [mkLineC, hdrLineC, addrLineC, depthLine2C, dumpLine1C, dumpLine2C,
         badDumpLineC]) =
      Except.error (PyErr.valueError (("0xzz").toList)) :=
  C7_malformed_numeric_aborts.2.2.2.2 [] [evDepth2] mkLineC hdrLineC addrLineC
    depthLine2C dumpLine1C dumpLine2C badDumpLineC [] 0x40025d 2 10 11 12 13
    (PyErr.valueError (("0xzz").toList)) (by simp)
    (by
      intro x hx
      simp only [List.mem_cons, List.not_mem_nil, or_false] at hx
      rcases hx with rfl
      exact evDepth2_wf)
    rfl rfl rfl rfl rfl rfl rfl rfl rfl rfl rfl rfl rfl
